import Mathlib

/-!
Shallow embedding of `tensorflow/contrib/learn/python/learn/experiment.py`
(the `Experiment` class).

The Python class orchestrates calls into an external `Estimator`
collaborator.  We model an execution as a list of observable events
(log lines, sleeps, and the calls made into the estimator, with the exact
arguments passed), together with the returned value or the propagated
exception.  Wall-clock time is modelled by `ℚ`: a sleep of `d` seconds
advances the clock by `d`, and the duration of each `Estimator.evaluate`
call inside the continuous-eval loop is supplied by an environment
`env : ℕ → ℚ × Except ExcKind R` giving, for each loop iteration, the
measured duration and the outcome (normal result or raised exception).
The unbounded `while True` loop of `_continuous_eval` is run for `fuel`
iterations.

Type parameters: `I` is the type of input functions (opaque values here),
`M` the type of the metrics mapping, `R` the estimator's evaluation
result, `F` the estimator's fit result.
-/

/-- Exceptions an estimator call can raise: the distinguished
`NotFittedError` from `estimators._sklearn`, or any other exception
(tagged by a code so that distinct exceptions stay distinct). -/
inductive ExcKind : Type where
  | notFittedError : ExcKind
  | otherError (code : Nat) : ExcKind
deriving DecidableEq, Repr

/-- Arguments of a call `estimator.evaluate(input_fn=…, steps=…, metrics=…,
name=…)`. -/
structure EvalCall (I M : Type) : Type where
  input_fn : I
  steps : Option Nat
  metrics : Option M
  name : String
deriving DecidableEq, Repr

/-- Configuration record of `monitors.ValidationMonitor(input_fn=…,
eval_steps=…, metrics=…, every_n_steps=…)` as constructed by
`Experiment.local_run`.  The monitor's behaviour is an external
collaborator concern; only its construction arguments are modelled. -/
structure ValidationMonitor (I M : Type) : Type where
  input_fn : I
  eval_steps : Option Nat
  metrics : Option M
  every_n_steps : Nat
deriving DecidableEq, Repr

/-- An element of the `train_monitors` list: either a `ValidationMonitor`
appended by `local_run`, or some other monitor supplied by the caller. -/
inductive Monitor (I M : Type) : Type where
  | validation (v : ValidationMonitor I M) : Monitor I M
  | other (id : Nat) : Monitor I M
deriving DecidableEq, Repr

/-- Arguments of a call `estimator.fit(input_fn=…, max_steps=…,
monitors=…)`.  `monitors` is `none` when Python passes `None`. -/
structure FitCall (I M : Type) : Type where
  input_fn : I
  max_steps : Option Nat
  monitors : Option (List (Monitor I M))
deriving DecidableEq, Repr

/-- Observable events of an execution. -/
inductive Event (I M : Type) : Type where
  | logInfo (msg : String) : Event I M
  | logWarning (msg : String) : Event I M
  | sleep (secs : ℚ) : Event I M
  | fitCall (c : FitCall I M) : Event I M
  | evalCall (c : EvalCall I M) : Event I M
deriving DecidableEq, Repr

/-- Behaviour of the external estimator for one-shot calls: the value
returned (or exception raised) by `fit` and `evaluate` as a function of
the arguments passed. -/
structure EstimatorModel (I M R F : Type) : Type where
  fit : FitCall I M → Except ExcKind F
  eval : EvalCall I M → Except ExcKind R

/-- The `Experiment` configuration record, mirroring the fields stored by
`Experiment.__init__` (the estimator itself is passed separately as an
`EstimatorModel`).  `eval_steps` defaults to `some 100` in the source;
defaults are irrelevant here since all fields are explicit. -/
structure Experiment (I M : Type) : Type where
  train_input_fn : I
  eval_input_fn : I
  eval_metrics : Option M
  train_steps : Option Nat
  eval_steps : Option Nat
  train_monitors : Option (List (Monitor I M))
  local_eval_frequency : Option Nat
deriving DecidableEq, Repr

/-- Log line of `train` for a nonzero delay. -/
def trainDelayMsg : String := "Waiting %d secs before starting training."

/-- Log line of `evaluate` for a nonzero delay. -/
def evalDelayMsg : String := "Waiting %d secs before starting eval."

/-- Log line of `_continuous_eval` for a nonzero delay. -/
def continuousDelayMsg : String := "Waiting %f secs before starting eval."

/-- Log line of `_continuous_eval` before the throttle sleep. -/
def throttleWaitMsg : String := "Waiting %f secs before starting next eval run."

/-- Warning logged when `_continuous_eval` catches `NotFittedError`
(message abbreviated to its first sentence). -/
def notFittedWarnMsg : String :=
  "Estimator is not fitted yet, skipping evaluation."

/-- `Experiment.train(delay_secs)`: optional logged sleep, then
`estimator.fit(input_fn=self._train_input_fn, max_steps=self._train_steps,
monitors=self._train_monitors)`, whose result is returned verbatim.
Returns the event trace and the result (Python's `if delay_secs:` is the
truthiness test `delay_secs ≠ 0`). -/
def Experiment.train {I M R F : Type} (exp : Experiment I M)
    (est : EstimatorModel I M R F) (delay_secs : ℚ) :
    List (Event I M) × Except ExcKind F :=
  let pre : List (Event I M) :=
    if delay_secs ≠ 0 then [Event.logInfo trainDelayMsg, Event.sleep delay_secs] else []
  let c : FitCall I M := ⟨exp.train_input_fn, exp.train_steps, exp.train_monitors⟩
  (pre ++ [Event.fitCall c], est.fit c)

/-- `Experiment.evaluate(delay_secs)`: optional logged sleep, then
`estimator.evaluate(input_fn=self._eval_input_fn, steps=self._eval_steps,
metrics=self._eval_metrics, name="one_pass")`, returned verbatim. -/
def Experiment.evaluate {I M R F : Type} (exp : Experiment I M)
    (est : EstimatorModel I M R F) (delay_secs : ℚ) :
    List (Event I M) × Except ExcKind R :=
  let pre : List (Event I M) :=
    if delay_secs ≠ 0 then [Event.logInfo evalDelayMsg, Event.sleep delay_secs] else []
  let c : EvalCall I M := ⟨exp.eval_input_fn, exp.eval_steps, exp.eval_metrics, "one_pass"⟩
  (pre ++ [Event.evalCall c], est.eval c)

/-- `Experiment.local_run()`:
`self._train_monitors = self._train_monitors or []`; if
`self._local_eval_frequency` is truthy, append one `ValidationMonitor`;
then `self.train()` and `return self.evaluate()` (the `train` result is
discarded, but an exception from it propagates, skipping `evaluate`).
Returns the mutated experiment, the trace and the result. -/
def Experiment.local_run {I M R F : Type} (exp : Experiment I M)
    (est : EstimatorModel I M R F) :
    Experiment I M × List (Event I M) × Except ExcKind R :=
  let tm : List (Monitor I M) := exp.train_monitors.getD []
  let tm2 : List (Monitor I M) :=
    match exp.local_eval_frequency with
    | some f =>
        if f ≠ 0 then
          tm ++ [Monitor.validation
            ⟨exp.eval_input_fn, exp.eval_steps, exp.eval_metrics, f⟩]
        else tm
    | none => tm
  let exp2 : Experiment I M := { exp with train_monitors := some tm2 }
  let tr := exp2.train est 0
  let rest : List (Event I M) × Except ExcKind R :=
    match tr.2 with
    | Except.error e => ([], Except.error e)
    | Except.ok _ => exp2.evaluate est 0
  (exp2, tr.1 ++ rest.1, rest.2)

/-- Result of one iteration of the `while True:` loop of
`_continuous_eval`: the iteration's start timestamp (`start =
time.time()`), its timestamped events, the clock when the iteration ends,
and `some e` when the iteration terminates the loop by propagating
exception `e`. -/
structure IterResult (I M : Type) : Type where
  startTime : ℚ
  events : List (ℚ × Event I M)
  endTime : ℚ
  exn : Option ExcKind
deriving DecidableEq, Repr

/-- Does this estimator outcome let the loop continue?  `True` for a
normal result and for `NotFittedError` (caught and logged); `False` for
any other exception (propagates). -/
def continues {R : Type} : Except ExcKind R → Bool
  | Except.error (ExcKind.otherError _) => false
  | _ => true

/-- One iteration of the `_continuous_eval` loop body, given the stored
`eval_steps`/`eval_metrics`, the loop's `input_fn` and `name`, the
throttle, and the measured duration `dur` and outcome `res` of the
`estimator.evaluate` call that the iteration performs at clock `start`. -/
def continuousEvalIter {I M R : Type} (es : Option Nat) (em : Option M)
    (ifn : I) (nm : String) (throttle_delay_secs : ℚ)
    (dur : ℚ) (res : Except ExcKind R) (start : ℚ) : IterResult I M :=
  let c : EvalCall I M := ⟨ifn, es, em, nm⟩
  let callEv : ℚ × Event I M := (start, Event.evalCall c)
  match res with
  | Except.error (ExcKind.otherError k) =>
      ⟨start, [callEv], start + dur, some (ExcKind.otherError k)⟩
  | r =>
      let warn : List (ℚ × Event I M) :=
        match r with
        | Except.error ExcKind.notFittedError =>
            [(start + dur, Event.logWarning notFittedWarnMsg)]
        | _ => []
      let duration : ℚ := (start + dur) - start
      if duration < throttle_delay_secs then
        let difference : ℚ := throttle_delay_secs - duration
        ⟨start,
         callEv :: warn ++
           [(start + dur, Event.logInfo throttleWaitMsg),
            (start + dur, Event.sleep difference)],
         start + dur + difference, none⟩
      else
        ⟨start, callEv :: warn, start + dur, none⟩

/-- The `while True:` loop of `_continuous_eval`, run for `fuel`
iterations starting at clock `t`; `env j` gives the duration and outcome
of the `j`-th `estimator.evaluate` call.  Returns the list of iteration
results; the loop stops early when an iteration propagates an
exception. -/
def continuousEvalIters {I M R : Type} (es : Option Nat) (em : Option M)
    (ifn : I) (nm : String) (throttle_delay_secs : ℚ) :
    (Nat → ℚ × Except ExcKind R) → Nat → ℚ → List (IterResult I M)
  | _, 0, _ => []
  | env, fuel + 1, t =>
      let r := continuousEvalIter es em ifn nm throttle_delay_secs
        (env 0).1 (env 0).2 t
      match r.exn with
      | some _ => [r]
      | none =>
          r :: continuousEvalIters es em ifn nm throttle_delay_secs
            (fun n => env (n + 1)) fuel r.endTime

/-- The exception (if any) with which a run of the loop terminated. -/
def itersExn {I M : Type} (l : List (IterResult I M)) : Option ExcKind :=
  l.foldr (fun r acc => match r.exn with | some e => some e | none => acc) none

/-- The timestamped event trace of a run of the loop: the iterations'
events in order. -/
def itersTrace {I M : Type} (l : List (IterResult I M)) : List (ℚ × Event I M) :=
  l.foldr (fun r acc => r.events ++ acc) []

/-- `Experiment._continuous_eval(input_fn, name, delay_secs,
throttle_delay_secs)`: optional logged initial sleep, then the throttled
evaluation loop (run here for `fuel` iterations from clock `t0`).
Returns the timestamped trace and the propagated exception, if any. -/
def Experiment._continuous_eval {I M R : Type} (exp : Experiment I M)
    (env : Nat → ℚ × Except ExcKind R) (ifn : I) (nm : String)
    (delay_secs throttle_delay_secs : ℚ) (t0 : ℚ) (fuel : Nat) :
    List (ℚ × Event I M) × Option ExcKind :=
  let pre : List (ℚ × Event I M) :=
    if delay_secs ≠ 0 then
      [(t0, Event.logInfo continuousDelayMsg), (t0, Event.sleep delay_secs)]
    else []
  let t1 : ℚ := if delay_secs ≠ 0 then t0 + delay_secs else t0
  let iters := continuousEvalIters (I := I) exp.eval_steps exp.eval_metrics
    ifn nm throttle_delay_secs env fuel t1
  (pre ++ itersTrace iters, itersExn iters)

/-- `Experiment.continuous_eval(delay_secs, throttle_delay_secs)`:
the helper with `self._eval_input_fn` and `name="continuous"`. -/
def Experiment.continuous_eval {I M R : Type} (exp : Experiment I M)
    (env : Nat → ℚ × Except ExcKind R)
    (delay_secs throttle_delay_secs : ℚ) (t0 : ℚ) (fuel : Nat) :
    List (ℚ × Event I M) × Option ExcKind :=
  exp._continuous_eval env exp.eval_input_fn "continuous"
    delay_secs throttle_delay_secs t0 fuel

/-- `Experiment.continuous_eval_on_train_data(delay_secs,
throttle_delay_secs)`: the helper with `self._train_input_fn` and
`name="continuous_on_train_data"`. -/
def Experiment.continuous_eval_on_train_data {I M R : Type}
    (exp : Experiment I M) (env : Nat → ℚ × Except ExcKind R)
    (delay_secs throttle_delay_secs : ℚ) (t0 : ℚ) (fuel : Nat) :
    List (ℚ × Event I M) × Option ExcKind :=
  exp._continuous_eval env exp.train_input_fn "continuous_on_train_data"
    delay_secs throttle_delay_secs t0 fuel

/-- Start time of the `n`-th `estimator.evaluate` invocation of the loop,
when every earlier iteration lets the loop continue: each iteration adds
`max throttle dur` to the clock. -/
def nthStart {R : Type} (env : Nat → ℚ × Except ExcKind R)
    (throttle_delay_secs : ℚ) (t : ℚ) : Nat → ℚ
  | 0 => t
  | n + 1 => nthStart env throttle_delay_secs t n + max throttle_delay_secs (env n).1

/-- The sleep durations occurring in a list of timestamped events. -/
def sleepsOf {I M : Type} (l : List (ℚ × Event I M)) : List ℚ :=
  l.filterMap (fun te => match te.2 with | Event.sleep s => some s | _ => none)

/-- The `ValidationMonitor` that `local_run` appends when
`local_eval_frequency` is truthy with value `f`. -/
def localValidationMonitor {I M : Type} (exp : Experiment I M) (f : Nat) :
    Monitor I M :=
  Monitor.validation ⟨exp.eval_input_fn, exp.eval_steps, exp.eval_metrics, f⟩

/-- C3: `train()` invokes the estimator's fit operation with exactly the
stored `train_input_fn`, `train_steps` (as `max_steps`) and
`train_monitors`, unchanged, and returns exactly what the fit call
returns. -/
theorem train_passes_stored_config {I M R F : Type} (exp : Experiment I M)
    (est : EstimatorModel I M R F) (delay_secs : ℚ) :
    (exp.train est delay_secs).2
        = est.fit ⟨exp.train_input_fn, exp.train_steps, exp.train_monitors⟩
      ∧ (exp.train est delay_secs).1.getLast?
        = some (Event.fitCall
            ⟨exp.train_input_fn, exp.train_steps, exp.train_monitors⟩) := by
  refine ⟨rfl, ?_⟩
  simp [Experiment.train]

/-- C4: `evaluate()` invokes the estimator's evaluate operation with
exactly the stored `eval_input_fn`, `eval_steps` and `eval_metrics`,
always with the fixed name `"one_pass"`, and returns exactly the
estimator's result. -/
theorem evaluate_passes_stored_config {I M R F : Type} (exp : Experiment I M)
    (est : EstimatorModel I M R F) (delay_secs : ℚ) :
    (exp.evaluate est delay_secs).2
        = est.eval ⟨exp.eval_input_fn, exp.eval_steps, exp.eval_metrics, "one_pass"⟩
      ∧ (exp.evaluate est delay_secs).1.getLast?
        = some (Event.evalCall
            ⟨exp.eval_input_fn, exp.eval_steps, exp.eval_metrics, "one_pass"⟩) := by
  refine ⟨rfl, ?_⟩
  simp [Experiment.evaluate]

/-- C6: `continuous_eval` runs the continuous-eval loop with the stored
`eval_input_fn` and name `"continuous"`; `continuous_eval_on_train_data`
runs the identical loop (same helper, same `delay_secs`,
`throttle_delay_secs`, and stored `eval_steps`/`eval_metrics`) with the
stored `train_input_fn` and name `"continuous_on_train_data"`. -/
theorem continuous_eval_variants {I M R : Type} (exp : Experiment I M)
    (env : Nat → ℚ × Except ExcKind R)
    (delay_secs throttle_delay_secs t0 : ℚ) (fuel : Nat) :
    exp.continuous_eval env delay_secs throttle_delay_secs t0 fuel
        = exp._continuous_eval env exp.eval_input_fn "continuous"
            delay_secs throttle_delay_secs t0 fuel
      ∧ exp.continuous_eval_on_train_data env delay_secs throttle_delay_secs t0 fuel
        = exp._continuous_eval env exp.train_input_fn "continuous_on_train_data"
            delay_secs throttle_delay_secs t0 fuel :=
  ⟨rfl, rfl⟩

/-- C7: with `local_eval_frequency = None`, `local_run()` changes the
experiment only by defaulting an unset `train_monitors` to the empty
list; no monitor is appended and no other field changes. -/
theorem local_run_none_frame {I M R F : Type} (exp : Experiment I M)
    (est : EstimatorModel I M R F)
    (h : exp.local_eval_frequency = none) :
    (exp.local_run est).1
      = { exp with train_monitors := some (exp.train_monitors.getD []) } := by
  simp [Experiment.local_run, h]

/-- A concrete experiment with `train_monitors` and
`local_eval_frequency` unset, used by witnesses. -/
def expNoFreq : Experiment Nat Nat := ⟨0, 1, none, none, some 100, none, none⟩

/-- A concrete experiment with one pre-existing monitor and
`local_eval_frequency = 5`, used by witnesses. -/
def expFreq5 : Experiment Nat Nat :=
  ⟨0, 1, none, none, some 100, some [Monitor.other 3], some 5⟩

/-- A concrete estimator whose calls all succeed, used by witnesses. -/
def estOk : EstimatorModel Nat Nat Nat Nat :=
  ⟨fun _ => Except.ok 0, fun _ => Except.ok 7⟩

/-- C7 witness: concrete instance with `train_monitors` unset. -/
theorem local_run_none_frame_witness :
    (expNoFreq.local_run estOk).1 = ⟨0, 1, none, none, some 100, some [], none⟩ := by
  have h := local_run_none_frame expNoFreq estOk rfl
  simpa [expNoFreq] using h

/-- C9: `local_run()` is not idempotent on the monitor list: with a
truthy `local_eval_frequency = f`, two successive calls append the
periodic validation monitor twice to the stored `train_monitors`. -/
theorem local_run_not_idempotent {I M R F : Type} (exp : Experiment I M)
    (est : EstimatorModel I M R F) (f : Nat)
    (hf : exp.local_eval_frequency = some f) (hf0 : f ≠ 0) :
    (((exp.local_run est).1).local_run est).1.train_monitors
      = some (exp.train_monitors.getD []
          ++ [localValidationMonitor exp f, localValidationMonitor exp f]) := by
  simp [Experiment.local_run, hf, hf0, localValidationMonitor]

/-- C9 witness: two runs on a concrete experiment stack two copies of the
same validation monitor. -/
theorem local_run_not_idempotent_witness :
    (((expFreq5.local_run estOk).1).local_run estOk).1.train_monitors
      = some [Monitor.other 3,
          Monitor.validation ⟨1, some 100, none, 5⟩,
          Monitor.validation ⟨1, some 100, none, 5⟩] := by
  have h := local_run_not_idempotent expFreq5 estOk 5 rfl (by decide)
  simpa [localValidationMonitor, expFreq5] using h

/-- C5: with a truthy `local_eval_frequency = f` and a fit call that
succeeds, a single `local_run()` appends exactly one periodic
`ValidationMonitor` (configured with the stored `eval_input_fn`,
`eval_steps`, `eval_metrics` and `every_n_steps = f`) to
`train_monitors`, then performs the fit call and the evaluate call with
no sleeps in between, discards the fit result, and returns the evaluate
result. -/
theorem local_run_with_freq {I M R F : Type} (exp : Experiment I M)
    (est : EstimatorModel I M R F) (f : Nat) (y : F)
    (hf : exp.local_eval_frequency = some f) (hf0 : f ≠ 0)
    (hfit : est.fit ⟨exp.train_input_fn, exp.train_steps,
        some (exp.train_monitors.getD [] ++ [localValidationMonitor exp f])⟩
      = Except.ok y) :
    (exp.local_run est).1.train_monitors
        = some (exp.train_monitors.getD [] ++ [localValidationMonitor exp f])
      ∧ (exp.local_run est).2.1
        = [Event.fitCall ⟨exp.train_input_fn, exp.train_steps,
              some (exp.train_monitors.getD [] ++ [localValidationMonitor exp f])⟩,
           Event.evalCall ⟨exp.eval_input_fn, exp.eval_steps, exp.eval_metrics, "one_pass"⟩]
      ∧ (exp.local_run est).2.2
        = est.eval ⟨exp.eval_input_fn, exp.eval_steps, exp.eval_metrics, "one_pass"⟩ := by
  have hfit' := hfit
  simp only [localValidationMonitor] at hfit'
  refine ⟨?_, ?_, ?_⟩ <;>
    simp [Experiment.local_run, Experiment.train, Experiment.evaluate,
      hf, hf0, hfit', localValidationMonitor]

/-- C5 witness: concrete run with `local_eval_frequency = 5`. -/
theorem local_run_with_freq_witness :
    (expFreq5.local_run estOk).1.train_monitors
        = some [Monitor.other 3, Monitor.validation ⟨1, some 100, none, 5⟩]
      ∧ (expFreq5.local_run estOk).2.1
        = [Event.fitCall ⟨0, none,
              some [Monitor.other 3, Monitor.validation ⟨1, some 100, none, 5⟩]⟩,
           Event.evalCall ⟨1, some 100, none, "one_pass"⟩]
      ∧ (expFreq5.local_run estOk).2.2 = Except.ok 7 := by
  have h := local_run_with_freq expFreq5 estOk 5 0 rfl (by decide) rfl
  simpa [localValidationMonitor, expFreq5, estOk] using h

/-- Every loop iteration records its `estimator.evaluate` call, with the
loop's `input_fn`, stored `eval_steps`/`eval_metrics` and `name`, as its
first event, timestamped at the iteration start. -/
theorem continuousEvalIter_events_cons {I M R : Type} (es : Option Nat)
    (em : Option M) (ifn : I) (nm : String) (th dur : ℚ)
    (res : Except ExcKind R) (start : ℚ) :
    ∃ tl, (continuousEvalIter (I := I) (M := M) es em ifn nm th dur res start).events
      = (start, Event.evalCall ⟨ifn, es, em, nm⟩) :: tl := by
  rcases res with e | r
  · cases e with
    | notFittedError =>
        simp only [continuousEvalIter]
        split
        · exact ⟨_, rfl⟩
        · exact ⟨_, rfl⟩
    | otherError k => exact ⟨_, rfl⟩
  · simp only [continuousEvalIter]
    split
    · exact ⟨_, rfl⟩
    · exact ⟨_, rfl⟩

/-- A loop iteration starts at the clock value it was entered with. -/
theorem continuousEvalIter_startTime {I M R : Type} (es : Option Nat)
    (em : Option M) (ifn : I) (nm : String) (th dur : ℚ)
    (res : Except ExcKind R) (start : ℚ) :
    (continuousEvalIter (I := I) (M := M) es em ifn nm th dur res start).startTime
      = start := by
  rcases res with e | r
  · cases e with
    | notFittedError =>
        simp only [continuousEvalIter]
        split <;> rfl
    | otherError k => rfl
  · simp only [continuousEvalIter]
    split <;> rfl

/-- An iteration whose estimator outcome lets the loop continue (a normal
result or `NotFittedError`) propagates no exception. -/
theorem continuousEvalIter_exn_none {I M R : Type} (es : Option Nat)
    (em : Option M) (ifn : I) (nm : String) (th dur : ℚ)
    (res : Except ExcKind R) (start : ℚ) (h : continues res = true) :
    (continuousEvalIter (I := I) (M := M) es em ifn nm th dur res start).exn
      = none := by
  rcases res with e | r
  · cases e with
    | notFittedError =>
        simp only [continuousEvalIter]
        split <;> rfl
    | otherError k => simp [continues] at h
  · simp only [continuousEvalIter]
    split <;> rfl

/-- An iteration whose estimator outcome is any exception other than
`NotFittedError` terminates the loop, propagating that exception. -/
theorem continuousEvalIter_exn_other {I M R : Type} (es : Option Nat)
    (em : Option M) (ifn : I) (nm : String) (th dur : ℚ) (k : Nat) (start : ℚ) :
    (continuousEvalIter (I := I) (M := M) (R := R) es em ifn nm th dur
        (Except.error (ExcKind.otherError k)) start).exn
      = some (ExcKind.otherError k) := rfl

/-- A continuing iteration ends at `start + max th dur`: after a short
evaluation the throttle sleep tops the iteration up to exactly `th`
seconds, and a long evaluation adds no wait. -/
theorem continuousEvalIter_endTime {I M R : Type} (es : Option Nat)
    (em : Option M) (ifn : I) (nm : String) (th dur : ℚ)
    (res : Except ExcKind R) (start : ℚ) (h : continues res = true) :
    (continuousEvalIter (I := I) (M := M) es em ifn nm th dur res start).endTime
      = start + max th dur := by
  have hdd : start + dur - start = dur := by ring
  rcases res with e | r
  · cases e with
    | notFittedError =>
        simp only [continuousEvalIter, hdd]
        split
        · next h' =>
            rw [max_eq_left (le_of_lt h')]
            ring
        · next h' =>
            rw [max_eq_right (le_of_not_lt h')]
    | otherError k => simp [continues] at h
  · simp only [continuousEvalIter, hdd]
    split
    · next h' =>
        rw [max_eq_left (le_of_lt h')]
        ring
    · next h' =>
        rw [max_eq_right (le_of_not_lt h')]

/-- A continuing iteration sleeps exactly `th - dur` seconds when the
evaluation took `dur < th` seconds, and does not sleep at all
otherwise. -/
theorem continuousEvalIter_sleeps {I M R : Type} (es : Option Nat)
    (em : Option M) (ifn : I) (nm : String) (th dur : ℚ)
    (res : Except ExcKind R) (start : ℚ) (h : continues res = true) :
    sleepsOf (continuousEvalIter (I := I) (M := M) es em ifn nm th dur
        res start).events
      = if dur < th then [th - dur] else [] := by
  have hdd : start + dur - start = dur := by ring
  rcases res with e | r
  · cases e with
    | notFittedError =>
        simp only [continuousEvalIter, hdd]
        split
        · next h' => simp [sleepsOf, if_pos h']
        · next h' => simp [sleepsOf, if_neg h']
    | otherError k => simp [continues] at h
  · simp only [continuousEvalIter, hdd]
    split
    · next h' => simp [sleepsOf, if_pos h']
    · next h' => simp [sleepsOf, if_neg h']

/-- An iteration whose estimator outcome is `NotFittedError` logs the
warning, timestamped right after the failed call. -/
theorem continuousEvalIter_warns {I M R : Type} (es : Option Nat)
    (em : Option M) (ifn : I) (nm : String) (th dur : ℚ) (start : ℚ) :
    (start + dur, Event.logWarning notFittedWarnMsg)
      ∈ (continuousEvalIter (I := I) (M := M) (R := R) es em ifn nm th dur
          (Except.error ExcKind.notFittedError) start).events := by
  simp only [continuousEvalIter]
  split
  · simp
  · simp

/-- Shifting the environment by one call: the `(n+1)`-st start time
equals the `n`-th start time of the shifted loop entered one throttle
period later. -/
theorem nthStart_shift {R : Type} (env : Nat → ℚ × Except ExcKind R) (th t : ℚ) :
    ∀ n, nthStart env th t (n + 1)
      = nthStart (fun k => env (k + 1)) th (t + max th (env 0).1) n := by
  intro n
  induction n with
  | zero => rfl
  | succ m ih =>
      calc nthStart env th t (m + 1 + 1)
          = nthStart env th t (m + 1) + max th (env (m + 1)).1 := rfl
        _ = nthStart (fun k => env (k + 1)) th (t + max th (env 0).1) m
              + max th ((fun k => env (k + 1)) m).1 := by rw [ih]
        _ = nthStart (fun k => env (k + 1)) th (t + max th (env 0).1) (m + 1) := rfl

/-- A run of the loop whose first `fuel` estimator outcomes all let the
loop continue performs exactly `fuel` evaluate invocations, the `n`-th
starting at `nthStart env th t n`. -/
theorem continuousEvalIters_startTimes {I M R : Type} (es : Option Nat)
    (em : Option M) (ifn : I) (nm : String) (th : ℚ) :
    ∀ (fuel : Nat) (env : Nat → ℚ × Except ExcKind R) (t : ℚ),
      (∀ j, j < fuel → continues (env j).2 = true) →
      (continuousEvalIters (I := I) (M := M) es em ifn nm th env fuel t).map
          IterResult.startTime
        = (List.range fuel).map (nthStart env th t) := by
  intro fuel
  induction fuel with
  | zero => intro env t _; rfl
  | succ n ih =>
      intro env t h
      have hc : continues (env 0).2 = true := h 0 (Nat.succ_pos n)
      have hexn := continuousEvalIter_exn_none es em ifn nm th (env 0).1 (env 0).2 t hc
      have hend := continuousEvalIter_endTime es em ifn nm th (env 0).1 (env 0).2 t hc
      have hst := continuousEvalIter_startTime es em ifn nm th (env 0).1 (env 0).2 t
      simp only [continuousEvalIters, hexn]
      rw [List.map_cons, hst, hend,
        ih (fun k => env (k + 1)) (t + max th (env 0).1)
          (fun j hj => h (j + 1) (Nat.succ_lt_succ hj)),
        List.range_succ_eq_map, List.map_cons, List.map_map]
      congr 1
      apply List.map_congr_left
      intro k _
      exact (nthStart_shift env th t k).symm

/-- A run of the loop with at least one unit of fuel begins with its
first iteration. -/
theorem continuousEvalIters_succ_head {I M R : Type} (es : Option Nat)
    (em : Option M) (ifn : I) (nm : String) (th : ℚ)
    (env : Nat → ℚ × Except ExcKind R) (fuel : Nat) (t : ℚ) :
    ∃ tl, continuousEvalIters (I := I) (M := M) es em ifn nm th env (fuel + 1) t
      = continuousEvalIter es em ifn nm th (env 0).1 (env 0).2 t :: tl := by
  cases hx : (continuousEvalIter (I := I) (M := M) es em ifn nm th
      (env 0).1 (env 0).2 t).exn with
  | none =>
      exact ⟨continuousEvalIters es em ifn nm th (fun n => env (n + 1)) fuel
          (continuousEvalIter es em ifn nm th (env 0).1 (env 0).2 t).endTime,
        by simp only [continuousEvalIters, hx]⟩
  | some e =>
      exact ⟨[], by simp only [continuousEvalIters, hx]⟩

/-- The flattened trace of a run of the loop with at least one unit of
fuel begins with the first evaluate invocation, at the entry clock. -/
theorem continuousEvalIters_trace_head {I M R : Type} (es : Option Nat)
    (em : Option M) (ifn : I) (nm : String) (th : ℚ)
    (env : Nat → ℚ × Except ExcKind R) (fuel : Nat) (t : ℚ) :
    ∃ tl, itersTrace (continuousEvalIters (I := I) (M := M) es em ifn nm th
        env (fuel + 1) t)
      = (t, Event.evalCall ⟨ifn, es, em, nm⟩) :: tl := by
  obtain ⟨tl0, h0⟩ := continuousEvalIter_events_cons es em ifn nm th
    (env 0).1 (env 0).2 t
  obtain ⟨tl1, h1⟩ := continuousEvalIters_succ_head es em ifn nm th env fuel t
  rw [h1]
  simp only [itersTrace, List.foldr_cons, h0]
  exact ⟨_, rfl⟩

/-- A run of the loop whose first estimator outcome lets the loop
continue is its first iteration followed by a run of the shifted loop
entered at that iteration's end clock. -/
theorem continuousEvalIters_cons_of_continues {I M R : Type} (es : Option Nat)
    (em : Option M) (ifn : I) (nm : String) (th : ℚ)
    (env : Nat → ℚ × Except ExcKind R) (fuel : Nat) (t : ℚ)
    (hc : continues (env 0).2 = true) :
    continuousEvalIters (I := I) (M := M) es em ifn nm th env (fuel + 1) t
      = continuousEvalIter es em ifn nm th (env 0).1 (env 0).2 t
          :: continuousEvalIters es em ifn nm th (fun n => env (n + 1)) fuel
              (continuousEvalIter es em ifn nm th (env 0).1 (env 0).2 t).endTime := by
  have hexn := continuousEvalIter_exn_none es em ifn nm th (env 0).1 (env 0).2 t hc
  simp only [continuousEvalIters, hexn]

/-- With a continuing first outcome, the first two evaluate invocations
of a run of the loop start at `t` and `t + max th (env 0).1`. -/
theorem continuousEvalIters_startTimes_take_two {I M R : Type} (es : Option Nat)
    (em : Option M) (ifn : I) (nm : String) (th : ℚ)
    (env : Nat → ℚ × Except ExcKind R) (fuel : Nat) (t : ℚ)
    (hc : continues (env 0).2 = true) :
    ((continuousEvalIters (I := I) (M := M) es em ifn nm th env (fuel + 2) t).map
        IterResult.startTime).take 2
      = [t, t + max th (env 0).1] := by
  have hend := continuousEvalIter_endTime es em ifn nm th (env 0).1 (env 0).2 t hc
  have hst0 := continuousEvalIter_startTime es em ifn nm th (env 0).1 (env 0).2 t
  obtain ⟨tl1, h1⟩ := continuousEvalIters_succ_head es em ifn nm th
    (fun n => env (n + 1)) fuel
    (continuousEvalIter es em ifn nm th (env 0).1 (env 0).2 t).endTime
  have hst1 := continuousEvalIter_startTime es em ifn nm th
    (env (0 + 1)).1 (env (0 + 1)).2
    (continuousEvalIter es em ifn nm th (env 0).1 (env 0).2 t).endTime
  show ((continuousEvalIters (I := I) (M := M) es em ifn nm th
      env (fuel + 1 + 1) t).map IterResult.startTime).take 2
    = [t, t + max th (env 0).1]
  rw [continuousEvalIters_cons_of_continues es em ifn nm th env (fuel + 1) t hc, h1]
  simp [hst0, hst1, hend, continuousEvalIter_startTime]

/-- C1: in `_continuous_eval`, consecutive `estimator.evaluate`
invocations are spaced at least `throttle_delay_secs` apart, start to
start: with all iterations continuing, the `n`-th call starts at
`nthStart env th t n`, consecutive start times differ by
`max th (env n).1 ≥ th`, and a continuing iteration sleeps exactly
`th - dur` when its evaluation took `dur < th` and does not sleep at all
otherwise. -/
theorem continuous_eval_throttle_invariant {I M R : Type} (es : Option Nat)
    (em : Option M) (ifn : I) (nm : String) (th t : ℚ)
    (env : Nat → ℚ × Except ExcKind R) (fuel : Nat)
    (h : ∀ j, j < fuel → continues (env j).2 = true) :
    ((continuousEvalIters (I := I) (M := M) es em ifn nm th env fuel t).map
        IterResult.startTime
      = (List.range fuel).map (nthStart env th t))
  ∧ (∀ n, nthStart env th t (n + 1) = nthStart env th t n + max th (env n).1)
  ∧ (∀ n, th ≤ nthStart env th t (n + 1) - nthStart env th t n)
  ∧ (∀ (dur : ℚ) (res : Except ExcKind R) (start : ℚ), continues res = true →
      sleepsOf (continuousEvalIter (I := I) (M := M) es em ifn nm th dur
          res start).events
        = if dur < th then [th - dur] else []) := by
  refine ⟨continuousEvalIters_startTimes es em ifn nm th fuel env t h,
    fun n => rfl, fun n => ?_,
    fun dur res start hc =>
      continuousEvalIter_sleeps es em ifn nm th dur res start hc⟩
  have hx := le_max_left th (env n).1
  simp only [nthStart]
  linarith

/-- C1 witness: two 10-second evaluations under a 60-second throttle
start 60 seconds apart. -/
theorem continuous_eval_throttle_invariant_witness :
    (continuousEvalIters (I := Nat) (M := Nat) (some 100) none 0 "continuous" 60
        (fun _ => ((10 : ℚ), (Except.ok 0 : Except ExcKind Nat))) 2 0).map
        IterResult.startTime
      = [0, 60] := by
  have h := continuous_eval_throttle_invariant (I := Nat) (M := Nat)
    (some 100) none 0 "continuous" 60 0
    (fun _ => ((10 : ℚ), (Except.ok 0 : Except ExcKind Nat))) 2
    (by decide)
  rw [h.1]
  norm_num [nthStart, List.range_succ]

/-- C10: an iteration whose `estimator.evaluate` raises `NotFittedError`
is still subject to the full throttle: the loop continues (no exception),
the warning is logged, control reaches the elapsed-time computation so
the iteration ends at `start + max th dur` — sleeping exactly `th - dur`
when `dur < th` — and the failed attempt and the next attempt are spaced
`max th (env 0).1 ≥ th` apart, start to start. -/
theorem notFitted_iteration_throttle {I M R : Type} (es : Option Nat)
    (em : Option M) (ifn : I) (nm : String) (th dur start t : ℚ)
    (env : Nat → ℚ × Except ExcKind R) (fuel : Nat)
    (hnf : (env 0).2 = Except.error ExcKind.notFittedError) :
    (continuousEvalIter (I := I) (M := M) (R := R) es em ifn nm th dur
        (Except.error ExcKind.notFittedError) start).exn = none
  ∧ (start + dur, Event.logWarning notFittedWarnMsg)
      ∈ (continuousEvalIter (I := I) (M := M) (R := R) es em ifn nm th dur
          (Except.error ExcKind.notFittedError) start).events
  ∧ (continuousEvalIter (I := I) (M := M) (R := R) es em ifn nm th dur
        (Except.error ExcKind.notFittedError) start).endTime = start + max th dur
  ∧ sleepsOf (continuousEvalIter (I := I) (M := M) (R := R) es em ifn nm th dur
        (Except.error ExcKind.notFittedError) start).events
      = (if dur < th then [th - dur] else [])
  ∧ ((continuousEvalIters (I := I) (M := M) es em ifn nm th env (fuel + 2) t).map
        IterResult.startTime).take 2 = [t, t + max th (env 0).1]
  ∧ th ≤ (t + max th (env 0).1) - t := by
  have hc : continues (env 0).2 = true := by rw [hnf]; rfl
  refine ⟨continuousEvalIter_exn_none es em ifn nm th dur
      (Except.error ExcKind.notFittedError) start rfl,
    continuousEvalIter_warns es em ifn nm th dur start,
    continuousEvalIter_endTime es em ifn nm th dur
      (Except.error ExcKind.notFittedError) start rfl,
    continuousEvalIter_sleeps es em ifn nm th dur
      (Except.error ExcKind.notFittedError) start rfl,
    continuousEvalIters_startTimes_take_two es em ifn nm th env fuel t hc, ?_⟩
  have hx := le_max_left th (env 0).1
  linarith

/-- C10 witness: a 10-second not-fitted attempt under a 60-second
throttle is followed by a next attempt 60 seconds after it started. -/
theorem notFitted_iteration_throttle_witness :
    ((continuousEvalIters (I := Nat) (M := Nat) (some 100) none 0 "continuous" 60
        (fun _ => ((10 : ℚ),
          (Except.error ExcKind.notFittedError : Except ExcKind Nat))) 2 0).map
        IterResult.startTime).take 2 = [0, 60]
  ∧ (continuousEvalIter (I := Nat) (M := Nat) (R := Nat) (some 100) none 0
        "continuous" 60 10 (Except.error ExcKind.notFittedError) 0).exn = none := by
  have h := notFitted_iteration_throttle (I := Nat) (M := Nat) (R := Nat)
    (some 100) none 0 "continuous" 60 10 0 0
    (fun _ => ((10 : ℚ),
      (Except.error ExcKind.notFittedError : Except ExcKind Nat))) 0 rfl
  refine ⟨?_, h.1⟩
  have h5 := h.2.2.2.2.1
  norm_num at h5
  exact h5

/-- C2: `NotFittedError` is recovered only inside `_continuous_eval`
(the iteration logs a warning and continues); any other exception from
the loop's evaluate call terminates the loop and propagates; and
`train`, `evaluate` and `local_run` return the estimator's outcome
verbatim, so every exception — `NotFittedError` included — propagates
unmodified from them. -/
theorem notFitted_recovery_scope {I M R F : Type} (exp : Experiment I M)
    (est : EstimatorModel I M R F) (es : Option Nat) (em : Option M)
    (ifn : I) (nm : String) (th dur start d t : ℚ) (k : Nat)
    (env : Nat → ℚ × Except ExcKind R) (fuel : Nat)
    (hk : (env 0).2 = Except.error (ExcKind.otherError k)) :
    ((continuousEvalIter (I := I) (M := M) (R := R) es em ifn nm th dur
        (Except.error ExcKind.notFittedError) start).exn = none
      ∧ (start + dur, Event.logWarning notFittedWarnMsg)
          ∈ (continuousEvalIter (I := I) (M := M) (R := R) es em ifn nm th dur
              (Except.error ExcKind.notFittedError) start).events)
  ∧ (continuousEvalIter (I := I) (M := M) (R := R) es em ifn nm th dur
        (Except.error (ExcKind.otherError k)) start).exn
      = some (ExcKind.otherError k)
  ∧ continuousEvalIters (I := I) (M := M) es em ifn nm th env (fuel + 1) t
      = [continuousEvalIter es em ifn nm th (env 0).1 (env 0).2 t]
  ∧ itersExn (continuousEvalIters (I := I) (M := M) es em ifn nm th env
        (fuel + 1) t)
      = some (ExcKind.otherError k)
  ∧ (exp.train est d).2
      = est.fit ⟨exp.train_input_fn, exp.train_steps, exp.train_monitors⟩
  ∧ (exp.evaluate est d).2
      = est.eval ⟨exp.eval_input_fn, exp.eval_steps, exp.eval_metrics, "one_pass"⟩
  ∧ (∀ e : ExcKind,
      est.fit ⟨exp.train_input_fn, exp.train_steps,
          (exp.local_run est).1.train_monitors⟩ = Except.error e →
      (exp.local_run est).2.2 = Except.error e)
  ∧ (∀ (e : ExcKind) (y : F),
      est.fit ⟨exp.train_input_fn, exp.train_steps,
          (exp.local_run est).1.train_monitors⟩ = Except.ok y →
      est.eval ⟨exp.eval_input_fn, exp.eval_steps, exp.eval_metrics, "one_pass"⟩
        = Except.error e →
      (exp.local_run est).2.2 = Except.error e) := by
  have hexn : (continuousEvalIter (I := I) (M := M) es em ifn nm th
      (env 0).1 (env 0).2 t).exn = some (ExcKind.otherError k) := by
    rw [hk]
    exact continuousEvalIter_exn_other es em ifn nm th (env 0).1 k t
  have hsingle : continuousEvalIters (I := I) (M := M) es em ifn nm th env
      (fuel + 1) t = [continuousEvalIter es em ifn nm th (env 0).1 (env 0).2 t] := by
    simp only [continuousEvalIters, hexn]
  refine ⟨⟨continuousEvalIter_exn_none es em ifn nm th dur
      (Except.error ExcKind.notFittedError) start rfl,
    continuousEvalIter_warns es em ifn nm th dur start⟩,
    continuousEvalIter_exn_other es em ifn nm th dur k start,
    hsingle, ?_, rfl, rfl, ?_, ?_⟩
  · rw [hsingle]
    simp [itersExn, hexn]
  · intro e he
    simp only [Experiment.local_run, Experiment.train] at he ⊢
    rw [he]
  · intro e y hfit heval
    simp only [Experiment.local_run, Experiment.train, Experiment.evaluate]
      at hfit ⊢
    rw [hfit, heval]

/-- A concrete estimator whose fit call raises `NotFittedError`, used by
witnesses. -/
def estFitErr : EstimatorModel Nat Nat Nat Nat :=
  ⟨fun _ => Except.error ExcKind.notFittedError, fun _ => Except.ok 7⟩

/-- C2 witness: a loop hitting an unrelated exception terminates with
that exception, and a `NotFittedError` raised under `local_run`
propagates out unmodified. -/
theorem notFitted_recovery_scope_witness :
    itersExn (continuousEvalIters (I := Nat) (M := Nat) (some 100) none 0
        "continuous" 60
        (fun _ => ((10 : ℚ),
          (Except.error (ExcKind.otherError 1) : Except ExcKind Nat))) 3 0)
      = some (ExcKind.otherError 1)
  ∧ (expNoFreq.local_run estFitErr).2.2
      = Except.error ExcKind.notFittedError := by
  have h := notFitted_recovery_scope expNoFreq estFitErr (some 100) none 0
    "continuous" 60 10 0 0 0 1
    (fun _ => ((10 : ℚ),
      (Except.error (ExcKind.otherError 1) : Except ExcKind Nat))) 2 rfl
  exact ⟨h.2.2.2.1, h.2.2.2.2.2.2.1 ExcKind.notFittedError rfl⟩

/-- C8: with `delay_secs > 0`, `train`, `evaluate` and
`_continuous_eval` each log and sleep for exactly `delay_secs` before
the first estimator invocation; with `delay_secs = 0` there is no sleep
and the estimator is invoked immediately. -/
theorem initial_delay_blocks {I M R F : Type} (exp : Experiment I M)
    (est : EstimatorModel I M R F) (env : Nat → ℚ × Except ExcKind R)
    (ifn : I) (nm : String) (d th t0 : ℚ) (fuel : Nat) :
    (0 < d →
      (exp.train est d).1
          = [Event.logInfo trainDelayMsg, Event.sleep d,
             Event.fitCall ⟨exp.train_input_fn, exp.train_steps, exp.train_monitors⟩]
        ∧ (exp.evaluate est d).1
          = [Event.logInfo evalDelayMsg, Event.sleep d,
             Event.evalCall ⟨exp.eval_input_fn, exp.eval_steps, exp.eval_metrics,
               "one_pass"⟩]
        ∧ (exp._continuous_eval env ifn nm d th t0 (fuel + 1)).1.take 3
          = [(t0, Event.logInfo continuousDelayMsg), (t0, Event.sleep d),
             (t0 + d, Event.evalCall ⟨ifn, exp.eval_steps, exp.eval_metrics, nm⟩)])
  ∧ ((exp.train est 0).1
        = [Event.fitCall ⟨exp.train_input_fn, exp.train_steps, exp.train_monitors⟩]
    ∧ (exp.evaluate est 0).1
        = [Event.evalCall ⟨exp.eval_input_fn, exp.eval_steps, exp.eval_metrics,
             "one_pass"⟩]
    ∧ (exp._continuous_eval env ifn nm 0 th t0 (fuel + 1)).1.take 1
        = [(t0, Event.evalCall ⟨ifn, exp.eval_steps, exp.eval_metrics, nm⟩)]) := by
  obtain ⟨tl, htl⟩ := continuousEvalIters_trace_head exp.eval_steps
    exp.eval_metrics ifn nm th env fuel (t0 + d)
  obtain ⟨tl0, htl0⟩ := continuousEvalIters_trace_head exp.eval_steps
    exp.eval_metrics ifn nm th env fuel t0
  constructor
  · intro hd
    refine ⟨?_, ?_, ?_⟩
    · simp [Experiment.train, hd.ne']
    · simp [Experiment.evaluate, hd.ne']
    · simp only [Experiment._continuous_eval, if_pos hd.ne', ne_eq,
        not_false_iff]
      rw [htl]
      simp
  · refine ⟨?_, ?_, ?_⟩
    · simp [Experiment.train]
    · simp [Experiment.evaluate]
    · simp only [Experiment._continuous_eval]
      norm_num
      rw [htl0]
      simp

/-- C8 witness: a 2-second delay produces the logged sleep before the
fit call, and a zero delay starts the loop's first evaluate call
immediately. -/
theorem initial_delay_blocks_witness :
    (expNoFreq.train estOk 2).1
        = [Event.logInfo trainDelayMsg, Event.sleep 2,
           Event.fitCall ⟨0, none, none⟩]
  ∧ (expNoFreq._continuous_eval
        (fun _ => ((10 : ℚ), (Except.ok 0 : Except ExcKind Nat)))
        1 "continuous" 0 60 0 1).1.take 1
      = [(0, Event.evalCall ⟨1, some 100, none, "continuous"⟩)] := by
  have h := initial_delay_blocks expNoFreq estOk
    (fun _ => ((10 : ℚ), (Except.ok 0 : Except ExcKind Nat)))
    1 "continuous" 2 60 0 0
  exact ⟨(h.1 (by norm_num)).1, h.2.2.2⟩
